import Mathlib

/-!
Verification development for the motion-planning core of the `dart` repository,
centred on `src/dart/planning/PathPlanner.h` (`PathPlanner::planPath`,
`PathPlanner::planSingleTreeRrt`, `PathPlanner::planBidirectionalRrt`).

The planner is templated on an RRT class whose implementation
(`dart/planning/RRT.h`) is not part of the given sources; the tree, the
extension primitives `tryStep`/`connect`, the sampler and the path extractor
are therefore modelled from the specification (its sections 3, 4.1, 4.3 and
4.6), while everything in `PathPlanner.h` is translated directly.

Conventions of the embedding:
- a configuration is a list of integers, one value per planned DOF: the
  planner itself only ever adds, subtracts and compares scalar values (the
  geometric interpolation lives behind `Extern.stepToward`), so the integers
  stand in for the C++ doubles without affecting any control flow;
- the external world (collision oracle, distance metric, straight-line
  stepping, the random sampler and the successive outputs of the planner's
  `std::uniform_real_distribution` over `std::mt19937`) is a record of pure
  functions `Extern`; the mt19937 output stream is indexed by the seed the
  generator was constructed with and by the draw index;
- the C++ `while` loops need not terminate, so every loop is fuel-indexed and
  returns `none` when the fuel runs out; `some r` means the C++ loop returns
  `r` to the caller;
- the model's DOF positions (`robot->getPositions(dofs)` /
  `robot->setPositions(dofs, q)`) are threaded explicitly through the
  start/goal filtering phase of `planPath`, which is where the early returns
  live; inside tree growth every validity query sets the positions too, but
  line 169 of the source (`robot->setPositions(dofs, savedConfiguration)`)
  overwrites them on every exit that passes through a planner, so the growth
  phase is modelled positions-free and `planPath` restores the saved
  configuration exactly where the source does.
-/

namespace DartPlanning

/-- A configuration: one scalar value per planned degree of freedom. -/
abbrev Config := List ℤ

/-- Modelled from the spec: a tree node holds a configuration and a nullable
parent reference; a node with no parent is a root (spec section 3). -/
structure Node where
  config : Config
  parent : Option Nat
deriving DecidableEq

/-- Modelled from the spec: the RRT is an ordered arena of nodes plus the
hidden mutable active-node index (`mConfigs` and `mActiveNode` in the missing
`dart/planning/RRT.h`, referenced at lines 282 and 291-292 of
`PathPlanner.h`). -/
structure RRT where
  nodes : List Node
  mActiveNode : Nat
deriving DecidableEq

/-- Modelled from the spec: tree size (`RRT::getSize`). -/
def RRT.getSize (t : RRT) : Nat := t.nodes.length

/-- Configuration stored at a node index, defaulting to the empty
configuration out of range. -/
def configAt (t : RRT) (i : Nat) : Config := ((t.nodes.get? i).map Node.config).getD []

/-- Modelled from the spec: the RRT is created (or reset) with one root node
per supplied configuration, each with no parent; the active node is the most
recently inserted one (spec sections 3 and 4.4). -/
def RRT.init (roots : List Config) : RRT :=
  { nodes := roots.map (fun c => { config := c, parent := none }), mActiveNode := roots.length - 1 }

/-- Modelled from the spec: result of a single extension step (spec
section 4.3): TRAPPED inserts no node, ADVANCED inserts a node short of the
target, REACHED inserts the target itself. -/
inductive StepResult where
  | reached
  | advanced
  | trapped
deriving DecidableEq

/-- External collaborators of the planner, as pure functions: the distance
metric and straight-line stepping of the tree (spec section 4.3), the
collision test of the world evaluated at the configuration the model was just
set to (spec section 4.2), the sampler stream (spec section 4.1), and the
mt19937-driven uniform draw stream of the planner, indexed by construction
seed and draw index (`mMT`, `mDistribution` in `PathPlanner.h`). -/
structure Extern where
  gap : Config → Config → ℤ
  stepToward : Config → Config → ℤ → Config
  collision : Config → Bool
  sampler : Nat → Config
  mtDraws : Nat → Nat → ℤ

/-- The planner options fixed at construction (`PathPlanner.h` lines 32-36)
together with the seed its Mersenne twister was constructed with. -/
structure Planner where
  bidirectional : Bool
  connect : Bool
  stepSize : ℤ
  maxNodes : Nat
  goalBias : ℤ
  mtSeed : Nat
deriving DecidableEq

/-- The desired constructor (`PathPlanner.h` lines 50-56): it takes the five
planning options and nothing else; the Mersenne twister member is seeded from
`std::random_device` (`mMT(mRD())`), modelled here as `deviceEntropy`, an
input of the environment rather than of the construction interface. -/
def mkPathPlanner (bidirectional_ connect_ : Bool) (stepSize_ : ℤ) (maxNodes_ : Nat)
    (goalBias_ : ℤ) (deviceEntropy : Nat) : Planner :=
  { bidirectional := bidirectional_, connect := connect_, stepSize := stepSize_,
    maxNodes := maxNodes_, goalBias := goalBias_, mtSeed := deviceEntropy }

/-- Modelled from the spec: linear scan for the node nearest the target under
the metric, keeping the earlier index on ties (spec section 4.3 step 1). -/
def nearestGo (gap : Config → Config → ℤ) (target : Config) (t : RRT) :
    List Node → Nat → Nat → Nat
  | [], _, best => best
  | nd :: rest, i, best =>
    nearestGo gap target t rest (i + 1)
      (if gap nd.config target < gap (configAt t best) target then i else best)

/-- Modelled from the spec: nearest-neighbor query over the whole arena. -/
def getNearestNeighbor (gap : Config → Config → ℤ) (t : RRT) (target : Config) : Nat :=
  nearestGo gap target t t.nodes 0 0

/-- Modelled from the spec: the candidate configuration of a single extension
step (spec section 4.3 step 2), at distance `min stepSize (gap nearest
target)` from the nearest node toward the target — the target itself when the
gap is within one step. -/
def stepCandidate (E : Extern) (stepSize : ℤ) (t : RRT) (target : Config) : Config :=
  let ncfg := configAt t (getNearestNeighbor E.gap t target)
  if E.gap ncfg target ≤ stepSize then target else E.stepToward ncfg target stepSize

/-- Modelled from the spec: a single extension step (spec section 4.3),
continued: an invalid candidate yields TRAPPED with no insertion; the active
node is then the nearest-neighbor index, which is what the note at line 278
of `PathPlanner.h` relies on. Otherwise the candidate is appended with the
nearest node as parent and becomes the active node, REACHED when it is the
target itself and ADVANCED otherwise. -/
def tryStep (E : Extern) (stepSize : ℤ) (t : RRT) (target : Config) : RRT × StepResult :=
  let ni := getNearestNeighbor E.gap t target
  let cand := stepCandidate E stepSize t target
  if E.collision cand then
    ({ t with mActiveNode := ni }, StepResult.trapped)
  else
    ({ nodes := t.nodes ++ [{ config := cand, parent := some ni }],
       mActiveNode := t.nodes.length },
     if cand = target then StepResult.reached else StepResult.advanced)

/-- Modelled from the spec: greedy multi-step extension, repeating `tryStep`
until TRAPPED or REACHED and reporting whether REACHED was achieved (spec
section 4.3); fuel-indexed because the repetition has no intrinsic bound. -/
def connectTree (E : Extern) (stepSize : ℤ) : Nat → RRT → Config → Option (RRT × Bool)
  | 0, _, _ => none
  | fuel + 1, t, target =>
    match tryStep E stepSize t target with
    | (t2, StepResult.trapped) => some (t2, false)
    | (t2, StepResult.reached) => some (t2, true)
    | (t2, StepResult.advanced) => connectTree E stepSize fuel t2 target

/-- One extension of a tree toward a target, dispatching on the planner's
extension mode exactly as the loop bodies of `PathPlanner.h` do (lines
202-205, 272-275, 283-286): `connect` in connect mode, a single `tryStep`
otherwise; the boolean is the meeting test used by the bidirectional planner
(REACHED in step mode, a successful connect in connect mode). -/
def extendTree (P : Planner) (E : Extern) (fuel : Nat) (t : RRT) (target : Config) :
    Option (RRT × Bool) :=
  if P.connect then connectTree E P.stepSize fuel t target
  else
    match tryStep E P.stepSize t target with
    | (t2, s) => some (t2, decide (s = StepResult.reached))

/-- Modelled from the spec: the parent chain from a node index to its root in
node-to-root order, fuel-bounded by the tree size so it is total even on
ill-formed trees (spec section 8, acyclicity). -/
def chainToRoot (t : RRT) : Nat → Nat → List Config
  | 0, _ => []
  | fuel + 1, i =>
    match t.nodes.get? i with
    | none => []
    | some nd =>
      match nd.parent with
      | none => [nd.config]
      | some p => nd.config :: chainToRoot t fuel p

/-- Modelled from the spec: `tracePath(node, path, reverse)` walks the parent
chain from the node to its root, producing configurations in root-to-node
order by default and node-to-root order when the reverse flag is set (spec
section 4.6); the produced segment is appended to the caller's list. -/
def tracePath (t : RRT) (i : Nat) (rev : Bool) : List Config :=
  let chain := chainToRoot t t.getSize i
  if rev then chain else chain.reverse

/-- Diagnostics emitted through `dtwarn` in `PathPlanner.h` (lines 134, 149,
163). -/
inductive Warn where
  | infeasibleStart
  | infeasibleGoal
  | multipleGoals
deriving DecidableEq

/-- Everything `planPath` leaves behind: its boolean result, the caller's
path list, the model's DOF positions, the planner's two retained trees and
the warnings emitted during the call. -/
structure Outcome where
  success : Bool
  path : List Config
  positions : Config
  startTree : Option RRT
  goalTree : Option RRT
  warnings : List Warn
deriving DecidableEq

/-- The feasibility sift of `planPath` (`PathPlanner.h` lines 124-129 and
139-144): each candidate is written to the model's positions and kept when
`world->checkCollision()` is false; the second component is the positions the
model is left with. -/
def sift (collision : Config → Bool) : List Config → Config → List Config × Config
  | [], pos => ([], pos)
  | c :: rest, _ =>
    let r := sift collision rest c
    (if collision c then r.1 else c :: r.1, r.2)

/-- The target chosen at the top of each planning iteration (`PathPlanner.h`
lines 193-199 and 263-269): one uniform draw, the goal if it falls below the
goal bias and a fresh sample otherwise; the second component is the sampler
index after the iteration. -/
def pickTarget (P : Planner) (E : Extern) (goal : Config) (ri si : Nat) : Config × Nat :=
  if E.mtDraws P.mtSeed ri < P.goalBias then (goal, si) else (E.sampler si, si + 1)

/-- The growth loop of `PathPlanner::planSingleTreeRrt` (lines 190-218):
while the tree size is at most `maxNodes`, extend toward the goal-biased
target, then succeed with the traced path as soon as the active node's gap to
the goal is below the step size. `ri` and `si` index the draw and sampler
streams. -/
def singleLoop (P : Planner) (E : Extern) (goal : Config) :
    Nat → RRT → Nat → Nat → List Config → Option (Bool × List Config × RRT)
  | 0, _, _, _, _ => none
  | fuel + 1, t, ri, si, path =>
    if t.getSize ≤ P.maxNodes then
      let pick := pickTarget P E goal ri si
      match extendTree P E fuel t pick.1 with
      | none => none
      | some r =>
        if E.gap (configAt r.1 r.1.mActiveNode) goal < P.stepSize then
          some (true, path ++ tracePath r.1 r.1.mActiveNode false, r.1)
        else
          singleLoop P E goal fuel r.1 (ri + 1) pick.2 path
    else
      some (false, path, t)

/-- `PathPlanner::planSingleTreeRrt` (lines 176-225): initialize (or reset)
the start tree with one root per feasible start and run the growth loop. -/
def planSingleTreeRrt (P : Planner) (E : Extern) (fuel : Nat) (start : List Config)
    (goal : Config) (path : List Config) : Option (Bool × List Config × RRT) :=
  singleLoop P E goal fuel (RRT.init start) 0 0 path

/-- The growth loop of `PathPlanner::planBidirectionalRrt` (lines 255-310):
while the combined node count is strictly below `maxNodes`, swap the two
trees' roles, extend the growing tree toward the goal-biased target, then let
the other tree extend toward the growing tree's active-node configuration;
when that second extension meets (REACHED in step mode, successful connect in
connect mode), trace the start tree forward and the goal tree in reverse into
the caller's path. `oneIsStart` records whether the first tree argument is
`start_rrt`. -/
def bidirLoop (P : Planner) (E : Extern) (goal0 : Config) :
    Nat → RRT → RRT → Bool → Nat → Nat → List Config →
      Option (Bool × List Config × RRT × RRT)
  | 0, _, _, _, _, _, _ => none
  | fuel + 1, r1, r2, oneIsStart, ri, si, path =>
    if r1.getSize + r2.getSize < P.maxNodes then
      let flag := !oneIsStart
      let pick := pickTarget P E goal0 ri si
      match extendTree P E fuel r2 pick.1 with
      | none => none
      | some g1 =>
        match extendTree P E fuel r1 (configAt g1.1 g1.1.mActiveNode) with
        | none => none
        | some g2 =>
          if g2.2 then
            let st := if flag then g1.1 else g2.1
            let gt := if flag then g2.1 else g1.1
            some (true,
              path ++ tracePath st st.mActiveNode false ++ tracePath gt gt.mActiveNode true,
              st, gt)
          else
            bidirLoop P E goal0 fuel g1.1 g2.1 flag (ri + 1) pick.2 path
    else
      some (false, path, if oneIsStart then r1 else r2, if oneIsStart then r2 else r1)

/-- `PathPlanner::planBidirectionalRrt` (lines 229-314): initialize (or
reset) the start tree on the feasible starts and the goal tree on the
feasible goals, then run the alternating growth loop; the goal-bias target is
always the first feasible goal (`goal[0]`, line 267). -/
def planBidirectionalRrt (P : Planner) (E : Extern) (fuel : Nat)
    (start goal : List Config) (path : List Config) :
    Option (Bool × List Config × RRT × RRT) :=
  bidirLoop P E (goal.headD []) fuel (RRT.init start) (RRT.init goal) true 0 0 path

/-- `PathPlanner::planPath` (lines 112-172): save the model's positions, sift
the start then the goal configurations through the collision oracle with an
early failure return (and a warning) when either sift leaves nothing,
dispatch on the topology (warning when the single-tree branch drops extra
feasible goals), and restore the saved positions before the planner-branch
returns. The two early returns do not restore: the positions component of
their outcome is whatever the sift last wrote. `st0` and `gt0` are the trees
retained from previous calls (`start_rrt`, `goal_rrt`), `pos0` the model's
positions at entry. -/
def planPath (P : Planner) (E : Extern) (fuel : Nat) (start goal : List Config)
    (path : List Config) (pos0 : Config) (st0 gt0 : Option RRT) : Option Outcome :=
  let saved := pos0
  let fs := sift E.collision start pos0
  if fs.1 = [] then
    some { success := false, path := path, positions := fs.2, startTree := st0,
           goalTree := gt0, warnings := [Warn.infeasibleStart] }
  else
    let fg := sift E.collision goal fs.2
    if fg.1 = [] then
      some { success := false, path := path, positions := fg.2, startTree := st0,
             goalTree := gt0, warnings := [Warn.infeasibleGoal] }
    else
      if P.bidirectional then
        match planBidirectionalRrt P E fuel fs.1 fg.1 path with
        | none => none
        | some r =>
          some { success := r.1, path := r.2.1, positions := saved,
                 startTree := some r.2.2.1, goalTree := some r.2.2.2, warnings := [] }
      else
        let ws := if 1 < fg.1.length then [Warn.multipleGoals] else []
        match planSingleTreeRrt P E fuel fs.1 (fg.1.headD []) path with
        | none => none
        | some r =>
          some { success := r.1, path := r.2.1, positions := saved,
                 startTree := some r.2.2, goalTree := gt0, warnings := ws }

/-- One-dimensional Euclidean metric (the absolute difference of the first
coordinates) used to instantiate the abstract geometry in concrete
scenarios. -/
def gap1 (a b : Config) : ℤ :=
  if a.headD 0 ≤ b.headD 0 then b.headD 0 - a.headD 0 else a.headD 0 - b.headD 0

/-- One-dimensional straight-line stepping: move the given distance from the
first configuration toward the second. -/
def stepToward1 (a b : Config) (d : ℤ) : Config :=
  [a.headD 0 + (if a.headD 0 ≤ b.headD 0 then d else -d)]

/-- Convenience constructor for one-dimensional concrete environments. -/
def mk1D (collision : Config → Bool) (sampler : Nat → Config) (draws : Nat → Nat → ℤ) :
    Extern :=
  { gap := gap1, stepToward := stepToward1, collision := collision,
    sampler := sampler, mtDraws := draws }

/-- Environment in which the single start configuration `[1]` is in collision
while everything else is free. -/
def envStartBlocked : Extern := mk1D (fun q => decide (q = [1])) (fun _ => [0]) (fun _ _ => 0)

/-- Planner used with `envStartBlocked`. -/
def plannerStartBlocked : Planner := mkPathPlanner false false 1 5 1 0

/-- Environment in which only the configurations `[0]` and `[10]` are
collision-free, so every extension candidate between them is rejected. -/
def envWalled : Extern :=
  mk1D (fun q => decide (¬(q = [0] ∨ q = [10]))) (fun _ => [5]) (fun _ _ => 0)

/-- Planner used with `envWalled`: single-tree, step mode, step size 1, node
budget 5, goal bias 1 so the target is always the goal. -/
def plannerWalled : Planner := mkPathPlanner false false 1 5 1 0

/-- Obstacle-free environment whose mt19937 draw stream depends on the
construction seed: seed 0 always draws 0, any other seed always draws 1. -/
def envSeedSensitive : Extern :=
  mk1D (fun _ => false) (fun _ => [100]) (fun seed _ => if seed = 0 then 0 else 1)

/-- Obstacle-free environment with constant draw 0. -/
def envFree : Extern := mk1D (fun _ => false) (fun _ => [100]) (fun _ _ => 0)

/-- Bidirectional planner whose node budget equals the two initial roots:
step size 1, maxNodes 2, goal bias 0. -/
def plannerTightBudget : Planner := mkPathPlanner true false 1 2 0 0

/-- Environment in which only `[0]` and `[2]` are collision-free and the
sampler always proposes the far-away `[100]`; the draw stream is constant 1
so the goal bias (0) never fires. -/
def envMeeting : Extern :=
  mk1D (fun q => decide (¬(q = [0] ∨ q = [2]))) (fun _ => [100]) (fun _ _ => 1)

/-- Bidirectional step-mode planner with step size 2 used with
`envMeeting`. -/
def plannerMeeting : Planner := mkPathPlanner true false 2 10 0 0

/-- Single-tree step-mode planner, step size 2, goal bias 1, used in
obstacle-free scenarios. -/
def plannerGoalSeeking : Planner := mkPathPlanner false false 2 10 1 0

/-- Environment in which every configuration is in collision. -/
def envAllBlocked : Extern := mk1D (fun _ => true) (fun _ => [0]) (fun _ _ => 0)

/-- The single-root tree grown from `[0]` in the `envWalled` scenario; it
never changes because every extension is TRAPPED there. -/
def walledTree : RRT := { nodes := [{ config := [0], parent := none }], mActiveNode := 0 }

/-- Start tree after the first (and only) iteration of the `envMeeting`
bidirectional run: root `[0]` plus the inserted meeting node `[2]`. -/
def meetStartTree : RRT :=
  { nodes := [{ config := [0], parent := none }, { config := [2], parent := some 0 }],
    mActiveNode := 1 }

/-- Goal tree of the `envMeeting` bidirectional run: its extension is TRAPPED
on the very first step, so it keeps its single root `[2]`. -/
def meetGoalTree : RRT := { nodes := [{ config := [2], parent := none }], mActiveNode := 0 }

/-- Tree produced by the successful obstacle-free single-tree run from `[0]`
to the goal `[1]`. -/
def reachedTree : RRT :=
  { nodes := [{ config := [0], parent := none }, { config := [1], parent := some 0 }],
    mActiveNode := 1 }

end DartPlanning

namespace DartPlanning

/-- Well-formedness of a tree: it holds at least one node and its active-node
index is in range; initialization on a nonempty root set establishes it and
every extension preserves it. -/
def RRT.WF (t : RRT) : Prop := t.nodes ≠ [] ∧ t.mActiveNode < t.nodes.length

lemma nearestGo_lt (gap : Config → Config → ℤ) (target : Config) (t : RRT) :
    ∀ (l : List Node) (i best n : Nat), i + l.length ≤ n → best < n →
      nearestGo gap target t l i best < n := by
  intro l
  induction l with
  | nil => intro i best n _ hb; simpa [nearestGo] using hb
  | cons nd rest ih =>
    intro i best n hlen hb
    simp only [nearestGo]
    apply ih
    · simp only [List.length_cons] at hlen; omega
    · split
      · simp only [List.length_cons] at hlen; omega
      · exact hb

lemma getNearestNeighbor_lt (gap : Config → Config → ℤ) (t : RRT) (target : Config)
    (h : t.nodes ≠ []) : getNearestNeighbor gap t target < t.nodes.length := by
  have hp : 0 < t.nodes.length := List.length_pos.mpr h
  have := nearestGo_lt gap target t t.nodes 0 0 t.nodes.length (by omega) hp
  simpa [getNearestNeighbor] using this

lemma tryStep_fst_cases (E : Extern) (s : ℤ) (t : RRT) (target : Config) :
    (tryStep E s t target).1 = { t with mActiveNode := getNearestNeighbor E.gap t target } ∨
    ∃ nd, (tryStep E s t target).1 =
      { nodes := t.nodes ++ [nd], mActiveNode := t.nodes.length } := by
  simp only [tryStep]
  split
  · left; rfl
  · right; exact ⟨_, rfl⟩

lemma tryStep_trapped_eq (E : Extern) (s : ℤ) (t t1 : RRT) (target : Config)
    (h : tryStep E s t target = (t1, StepResult.trapped)) :
    t1 = { t with mActiveNode := getNearestNeighbor E.gap t target } := by
  simp only [tryStep] at h
  split at h
  · rw [Prod.mk.injEq] at h
    exact h.1.symm
  · rw [Prod.mk.injEq] at h
    have h2 := h.2
    split at h2
    · exact StepResult.noConfusion h2
    · exact StepResult.noConfusion h2

lemma tryStep_WF (E : Extern) (s : ℤ) (t : RRT) (target : Config) (hw : t.WF) :
    (tryStep E s t target).1.WF := by
  rcases tryStep_fst_cases E s t target with h | ⟨nd, h⟩
  · refine ⟨?_, ?_⟩
    · rw [h]; exact hw.1
    · rw [h]; exact getNearestNeighbor_lt E.gap t target hw.1
  · refine ⟨?_, ?_⟩
    · rw [h]; simp
    · rw [h]; simp

lemma connectTree_WF (E : Extern) (s : ℤ) :
    ∀ (fuel : Nat) (t : RRT) (target : Config) (t2 : RRT) (b : Bool),
      t.WF → connectTree E s fuel t target = some (t2, b) → t2.WF := by
  intro fuel
  induction fuel with
  | zero => intro t target t2 b _ h; exact Option.noConfusion h
  | succ n ih =>
    intro t target t2 b hw h
    simp only [connectTree] at h
    rcases hstep : tryStep E s t target with ⟨t3, s3⟩
    rw [hstep] at h
    have h3 : t3.WF := by
      have := tryStep_WF E s t target hw
      rw [hstep] at this
      exact this
    cases s3 with
    | trapped =>
      simp only [Option.some.injEq, Prod.mk.injEq] at h
      exact h.1 ▸ h3
    | reached =>
      simp only [Option.some.injEq, Prod.mk.injEq] at h
      exact h.1 ▸ h3
    | advanced => exact ih t3 target t2 b h3 h

lemma extendTree_WF (P : Planner) (E : Extern) (fuel : Nat) (t : RRT) (target : Config)
    (t2 : RRT) (b : Bool) (hw : t.WF) (h : extendTree P E fuel t target = some (t2, b)) :
    t2.WF := by
  unfold extendTree at h
  split at h
  · exact connectTree_WF E P.stepSize fuel t target t2 b hw h
  · rcases hstep : tryStep E P.stepSize t target with ⟨t3, s3⟩
    rw [hstep] at h
    simp only [Option.some.injEq, Prod.mk.injEq] at h
    have h3 := tryStep_WF E P.stepSize t target hw
    rw [hstep] at h3
    exact h.1 ▸ h3

lemma extendTree_step_mode (P : Planner) (E : Extern) (fuel : Nat) (t : RRT) (target : Config)
    (hmode : P.connect = false) :
    extendTree P E fuel t target =
      some ((tryStep E P.stepSize t target).1,
        decide ((tryStep E P.stepSize t target).2 = StepResult.reached)) := by
  unfold extendTree
  rw [hmode]
  rcases h : tryStep E P.stepSize t target with ⟨t3, s3⟩
  simp [h]

lemma sift_all_blocked (c : Config → Bool) :
    ∀ (l : List Config) (pos : Config), (∀ x ∈ l, c x = true) → (sift c l pos).1 = [] := by
  intro l
  induction l with
  | nil => intro pos _; rfl
  | cons a rest ih =>
    intro pos h
    simp only [sift]
    rw [if_pos (h a (by simp))]
    exact ih a (fun x hx => h x (by simp [hx]))

lemma sift_mem_not_collision (c : Config → Bool) :
    ∀ (l : List Config) (pos x : Config), x ∈ (sift c l pos).1 → c x = false := by
  intro l
  induction l with
  | nil => intro pos x h; exact absurd h (by simp [sift])
  | cons a rest ih =>
    intro pos x h
    simp only [sift] at h
    by_cases hca : c a = true
    · rw [if_pos hca] at h
      exact ih a x h
    · rw [if_neg hca] at h
      rcases List.mem_cons.mp h with rfl | hx
      · exact Bool.not_eq_true (c x) ▸ hca
      · exact ih a x hx

lemma tracePath_true_eq_reverse (t : RRT) (i : Nat) :
    tracePath t i true = (tracePath t i false).reverse := by
  simp [tracePath]

lemma configAt_eq (t : RRT) (i : Nat) (nd : Node) (h : t.nodes.get? i = some nd) :
    configAt t i = nd.config := by
  unfold configAt
  rw [h]
  rfl

lemma chainToRoot_cons (t : RRT) (i k : Nat) (nd : Node) (h : t.nodes.get? i = some nd) :
    ∃ rest, chainToRoot t (k + 1) i = nd.config :: rest := by
  cases hp : nd.parent with
  | none => exact ⟨[], by simp only [chainToRoot, h, hp]⟩
  | some p => exact ⟨chainToRoot t k p, by simp only [chainToRoot, h, hp]⟩

lemma tracePath_false_concat (t : RRT) (i : Nat) (hw : t.WF) (hi : i < t.getSize) :
    ∃ l, tracePath t i false = l ++ [configAt t i] := by
  obtain ⟨k, hk⟩ : ∃ k, t.getSize = k + 1 := by
    have : 0 < t.getSize := List.length_pos.mpr hw.1
    exact ⟨t.getSize - 1, by omega⟩
  obtain ⟨nd, hnd⟩ : ∃ nd, t.nodes.get? i = some nd :=
    ⟨_, List.get?_eq_get (show i < t.nodes.length from hi)⟩
  obtain ⟨rest, hc⟩ := chainToRoot_cons t i k nd hnd
  refine ⟨rest.reverse, ?_⟩
  simp only [tracePath, Bool.false_eq_true, if_false, hk, hc]
  rw [List.reverse_cons, configAt_eq t i nd hnd]

lemma getLast?_append_concat (l1 l2 : List Config) (a : Config) :
    (l1 ++ (l2 ++ [a])).getLast? = some a := by
  rw [← List.append_assoc]
  exact List.getLast?_concat _

end DartPlanning

namespace DartPlanning

lemma singleLoop_false (P : Planner) (E : Extern) (goal : Config) :
    ∀ (fuel : Nat) (t : RRT) (ri si : Nat) (path p : List Config) (t2 : RRT),
      singleLoop P E goal fuel t ri si path = some (false, p, t2) → p = path := by
  intro fuel
  induction fuel with
  | zero => intro t ri si path p t2 h; exact Option.noConfusion h
  | succ n ih =>
    intro t ri si path p t2 h
    simp only [singleLoop] at h
    split at h
    · split at h
      · exact Option.noConfusion h
      · split at h
        · simp at h
        · exact ih _ _ _ _ _ _ h
    · simp only [Option.some.injEq, Prod.mk.injEq] at h
      exact h.2.1.symm

lemma singleLoop_true (P : Planner) (E : Extern) (goal : Config) :
    ∀ (fuel : Nat) (t : RRT) (ri si : Nat) (path p : List Config) (t2 : RRT),
      t.WF → singleLoop P E goal fuel t ri si path = some (true, p, t2) →
      t2.WF ∧ E.gap (configAt t2 t2.mActiveNode) goal < P.stepSize ∧
        p = path ++ tracePath t2 t2.mActiveNode false := by
  intro fuel
  induction fuel with
  | zero => intro t ri si path p t2 _ h; exact Option.noConfusion h
  | succ n ih =>
    intro t ri si path p t2 hw h
    simp only [singleLoop] at h
    split at h
    · split at h
      · exact Option.noConfusion h
      · rename_i r hext
        have hwr : r.1.WF := extendTree_WF P E n t _ r.1 r.2 hw (by rw [hext])
        split at h
        · rename_i hgap
          simp only [Option.some.injEq, Prod.mk.injEq] at h
          obtain ⟨-, hp, ht⟩ := h
          subst ht
          exact ⟨hwr, hgap, hp.symm⟩
        · exact ih _ _ _ _ _ _ hwr h
    · simp at h

lemma bidirLoop_false (P : Planner) (E : Extern) (g0 : Config) :
    ∀ (fuel : Nat) (r1 r2 : RRT) (flag : Bool) (ri si : Nat) (path p : List Config)
      (st gt : RRT),
      bidirLoop P E g0 fuel r1 r2 flag ri si path = some (false, p, st, gt) →
      p = path ∧ P.maxNodes ≤ st.getSize + gt.getSize := by
  intro fuel
  induction fuel with
  | zero => intro r1 r2 flag ri si path p st gt h; exact Option.noConfusion h
  | succ n ih =>
    intro r1 r2 flag ri si path p st gt h
    simp only [bidirLoop] at h
    split at h
    · split at h
      · exact Option.noConfusion h
      · split at h
        · exact Option.noConfusion h
        · split at h
          · simp at h
          · exact ih _ _ _ _ _ _ _ _ _ h
    · rename_i hguard
      simp only [Option.some.injEq, Prod.mk.injEq] at h
      obtain ⟨-, hp, hst, hgt⟩ := h
      refine ⟨hp.symm, ?_⟩
      rw [← hst, ← hgt]
      cases flag <;> simp <;> omega

lemma bidirLoop_true (P : Planner) (E : Extern) (g0 : Config) :
    ∀ (fuel : Nat) (r1 r2 : RRT) (flag : Bool) (ri si : Nat) (path p : List Config)
      (st gt : RRT),
      bidirLoop P E g0 fuel r1 r2 flag ri si path = some (true, p, st, gt) →
      p = path ++ tracePath st st.mActiveNode false ++ tracePath gt gt.mActiveNode true := by
  intro fuel
  induction fuel with
  | zero => intro r1 r2 flag ri si path p st gt h; exact Option.noConfusion h
  | succ n ih =>
    intro r1 r2 flag ri si path p st gt h
    simp only [bidirLoop] at h
    split at h
    · split at h
      · exact Option.noConfusion h
      · split at h
        · exact Option.noConfusion h
        · split at h
          · simp only [Option.some.injEq, Prod.mk.injEq] at h
            obtain ⟨-, hp, hst, hgt⟩ := h
            rw [hst, hgt] at hp
            exact hp.symm
          · exact ih _ _ _ _ _ _ _ _ _ h
    · simp at h

end DartPlanning

namespace DartPlanning

/-- C1: the claim states that the model's DOF positions after any `planPath`
call equal their values immediately before the call, on every exit path. The
code violates this on the upfront-infeasibility exits: the returns at lines
131-136 and 146-151 of `PathPlanner.h` skip the restore at line 169, leaving
the positions at the last configuration written by the feasibility sift. At
the concrete input below (positions `[5]` before the call, single start `[1]`
in collision, goal `[2]` free) the call returns failure with the model left
at `[1]`, not at the saved `[5]`. -/
theorem c1_restore_skipped_on_infeasible_start :
    planPath plannerStartBlocked envStartBlocked 0 [[1]] [[2]] [] [5] none none =
      some { success := false, path := [], positions := [1], startTree := none,
             goalTree := none, warnings := [Warn.infeasibleStart] } ∧
    ([1] : Config) ≠ [5] := by decide

/-- C3: when every supplied start configuration fails the validity oracle —
and symmetrically, when every supplied goal configuration does — `planPath`
returns failure as a value (lines 131-136 and 146-151 of `PathPlanner.h`),
with the caller's path list and the planner's retained trees untouched (so a
fresh planner still has tree size 0) and a diagnostic emitted; with an empty
input path this is the `(false, [])` result. First conjunct: all starts
infeasible yields the infeasible-start diagnostic. Second conjunct: all goals
infeasible yields the infeasible-goal diagnostic, except that when the start
sift is also empty the start-side return fires first with its own
diagnostic — either way a failure value, untouched trees and path, and a
warning. -/
theorem c3_infeasible_start_or_goal_fails_cleanly
    (P : Planner) (E : Extern) (fuel : Nat) (start goal path : List Config) (pos0 : Config)
    (st0 gt0 : Option RRT) :
    ((∀ s ∈ start, E.collision s = true) →
      planPath P E fuel start goal path pos0 st0 gt0 =
        some { success := false, path := path,
               positions := (sift E.collision start pos0).2,
               startTree := st0, goalTree := gt0,
               warnings := [Warn.infeasibleStart] }) ∧
    ((∀ g ∈ goal, E.collision g = true) →
      planPath P E fuel start goal path pos0 st0 gt0 =
        some { success := false, path := path,
               positions := if (sift E.collision start pos0).1 = []
                 then (sift E.collision start pos0).2
                 else (sift E.collision goal (sift E.collision start pos0).2).2,
               startTree := st0, goalTree := gt0,
               warnings := if (sift E.collision start pos0).1 = []
                 then [Warn.infeasibleStart] else [Warn.infeasibleGoal] }) := by
  constructor
  · intro h
    have hempty := sift_all_blocked E.collision start pos0 h
    simp [planPath, hempty]
  · intro h
    by_cases hs : (sift E.collision start pos0).1 = []
    · simp [planPath, hs]
    · have hgempty := sift_all_blocked E.collision goal (sift E.collision start pos0).2 h
      simp [planPath, hs, hgempty]

/-- Witness for C3, both conjuncts at concrete runs: all starts blocked in
the everywhere-blocked environment, and all goals blocked (start `[0]` free,
goal `[1]` in collision) in `envStartBlocked`; every hypothesis is discharged
by evaluation. -/
theorem c3_infeasible_start_or_goal_witness :
    ((∀ s ∈ [([3] : Config)], envAllBlocked.collision s = true) ∧
      planPath plannerWalled envAllBlocked 2 [[3]] [[4]] [[9]] [2] none none =
        some { success := false, path := [[9]], positions := [3], startTree := none,
               goalTree := none, warnings := [Warn.infeasibleStart] }) ∧
    ((∀ g ∈ [([1] : Config)], envStartBlocked.collision g = true) ∧
      planPath plannerStartBlocked envStartBlocked 0 [[0]] [[1]] [[9]] [5] none none =
        some { success := false, path := [[9]], positions := [1], startTree := none,
               goalTree := none, warnings := [Warn.infeasibleGoal] }) :=
  ⟨⟨by decide,
    ((c3_infeasible_start_or_goal_fails_cleanly plannerWalled envAllBlocked 2 [[3]] [[4]]
      [[9]] [2] none none).1 (by decide)).trans (by decide)⟩,
   ⟨by decide,
    ((c3_infeasible_start_or_goal_fails_cleanly plannerStartBlocked envStartBlocked 0 [[0]]
      [[1]] [[9]] [5] none none).2 (by decide)).trans (by decide)⟩⟩

/-- C10: on every failure return of `planPath` — no feasible start, no
feasible goal, or budget exhaustion in either planner — the caller's path
list is returned exactly as it was passed in: the early returns never touch
it and both growth loops write into it only on their success exits. -/
theorem c10_failure_preserves_path
    (P : Planner) (E : Extern) (fuel : Nat) (start goal path : List Config) (pos0 : Config)
    (st0 gt0 : Option RRT) (o : Outcome)
    (h : planPath P E fuel start goal path pos0 st0 gt0 = some o)
    (hfail : o.success = false) : o.path = path := by
  simp only [planPath] at h
  split at h
  · simp only [Option.some.injEq] at h
    subst h
    rfl
  · split at h
    · simp only [Option.some.injEq] at h
      subst h
      rfl
    · split at h
      · split at h
        · exact Option.noConfusion h
        · rename_i r hr
          simp only [Option.some.injEq] at h
          subst h
          obtain ⟨b, p2, st2, gt2⟩ := r
          have hb : b = false := hfail
          subst hb
          unfold planBidirectionalRrt at hr
          exact (bidirLoop_false P E _ fuel _ _ true 0 0 path p2 st2 gt2 hr).1
      · split at h
        · exact Option.noConfusion h
        · rename_i r hr
          simp only [Option.some.injEq] at h
          subst h
          obtain ⟨b, p2, t2⟩ := r
          have hb : b = false := hfail
          subst hb
          unfold planSingleTreeRrt at hr
          exact singleLoop_false P E _ fuel _ 0 0 path p2 t2 hr

/-- Witness for C10: a failing concrete run whose input path `[[9]]` comes
back unchanged. -/
theorem c10_failure_preserves_path_witness :
    planPath plannerWalled envAllBlocked 0 [[5]] [[6]] [[9]] [] none none =
      some { success := false, path := [[9]], positions := [5], startTree := none,
             goalTree := none, warnings := [Warn.infeasibleStart] } ∧
    ({ success := false, path := [[9]], positions := [5], startTree := none,
       goalTree := none, warnings := [Warn.infeasibleStart] } : Outcome).path = [[9]] :=
  ⟨by decide,
    c10_failure_preserves_path plannerWalled envAllBlocked 0 [[5]] [[6]] [[9]] [] none none
      _ (by decide) rfl⟩

end DartPlanning

namespace DartPlanning

/-- C7: the single-tree planner reports success only when some node's gap to
the goal is strictly below the step size (lines 207-214 of `PathPlanner.h`
check the active node's gap), and on success the last configuration of the
returned path is the active node's configuration, whose gap to the goal is
strictly below the step size. -/
theorem c7_single_tree_success_criterion
    (P : Planner) (E : Extern) (fuel : Nat) (start : List Config) (goal : Config)
    (path p : List Config) (t : RRT) (hne : start ≠ [])
    (h : planSingleTreeRrt P E fuel start goal path = some (true, p, t)) :
    (∃ i, i < t.getSize ∧ E.gap (configAt t i) goal < P.stepSize) ∧
    p.getLast? = some (configAt t t.mActiveNode) ∧
    E.gap (configAt t t.mActiveNode) goal < P.stepSize := by
  have hlen : 0 < start.length := List.length_pos.mpr hne
  have hw : (RRT.init start).WF := by
    refine ⟨?_, ?_⟩
    · simp only [RRT.init, ne_eq, List.map_eq_nil_iff]
      exact hne
    · simp only [RRT.init, List.length_map]
      omega
  unfold planSingleTreeRrt at h
  obtain ⟨hwt, hgap, hp⟩ := singleLoop_true P E goal fuel (RRT.init start) 0 0 path p t hw h
  refine ⟨⟨t.mActiveNode, hwt.2, hgap⟩, ?_, hgap⟩
  obtain ⟨l, hl⟩ := tracePath_false_concat t t.mActiveNode hwt hwt.2
  rw [hp, hl]
  exact getLast?_append_concat path l _

/-- Witness for C7: the obstacle-free goal-biased run from `[0]` to `[1]`
succeeds and satisfies the success criterion. -/
theorem c7_single_tree_success_witness :
    (([[0]] : List Config) ≠ [] ∧
      planSingleTreeRrt plannerGoalSeeking envFree 3 [[0]] [1] [] =
        some (true, [[0], [1]], reachedTree)) ∧
    ((∃ i, i < reachedTree.getSize ∧
        envFree.gap (configAt reachedTree i) [1] < plannerGoalSeeking.stepSize) ∧
      ([[0], [1]] : List Config).getLast? = some (configAt reachedTree reachedTree.mActiveNode) ∧
      envFree.gap (configAt reachedTree reachedTree.mActiveNode) [1] <
        plannerGoalSeeking.stepSize) :=
  ⟨⟨by decide, by decide⟩,
    c7_single_tree_success_criterion plannerGoalSeeking envFree 3 [[0]] [1] [] [[0], [1]]
      reachedTree (by decide) (by decide)⟩

/-- C8: when the bidirectional planner succeeds, the returned path is the
caller's list extended with the start tree's trace from root to active node,
followed by the reverse of the goal tree's root-to-active trace (lines
288-294 of `PathPlanner.h`), so the sequence runs start, meeting point,
goal. -/
theorem c8_bidirectional_path_assembly
    (P : Planner) (E : Extern) (fuel : Nat) (start goal path p : List Config) (st gt : RRT)
    (h : planBidirectionalRrt P E fuel start goal path = some (true, p, st, gt)) :
    p = path ++ tracePath st st.mActiveNode false ++
      (tracePath gt gt.mActiveNode false).reverse := by
  unfold planBidirectionalRrt at h
  have hq := bidirLoop_true P E (goal.headD []) fuel (RRT.init start) (RRT.init goal) true 0 0
    path p st gt h
  rw [hq, tracePath_true_eq_reverse]

/-- Witness for C8: the concrete meeting run; the assembled path is
`[0], [2], [2]` — start root, meeting node on the start side, goal root. -/
theorem c8_bidirectional_path_assembly_witness :
    planBidirectionalRrt plannerMeeting envMeeting 1 [[0]] [[2]] [] =
      some (true, [[0], [2], [2]], meetStartTree, meetGoalTree) ∧
    ([[0], [2], [2]] : List Config) =
      [] ++ tracePath meetStartTree meetStartTree.mActiveNode false ++
        (tracePath meetGoalTree meetGoalTree.mActiveNode false).reverse :=
  ⟨by decide,
    c8_bidirectional_path_assembly plannerMeeting envMeeting 1 [[0]] [[2]] [] [[0], [2], [2]]
      meetStartTree meetGoalTree (by decide)⟩

/-- C4 counterexample: the claim says the construction interface accepts an
explicit seed making equally-seeded instances behave identically on identical
inputs. The constructor at lines 50-56 of `PathPlanner.h` has no seed
parameter: `mMT(mRD())` seeds the generator from `std::random_device`. The
two planners below are constructed with identical constructor arguments and
differ only in that hidden device entropy, yet on the same input one returns
the path `[0], [1]` and the other `[0], [2]`. -/
theorem c4_same_construction_args_different_results :
    planPath (mkPathPlanner false false 2 3 1 0) envSeedSensitive 5 [[0]] [[1]] [] [0]
        none none ≠
      planPath (mkPathPlanner false false 2 3 1 1) envSeedSensitive 5 [[0]] [[1]] [] [0]
        none none := by decide

/-- C4 amended: the construction interface accepts no explicit seed — the
generator is seeded from the random device — and the planner's behavior is a
function of its constructor arguments together with that hidden device seed:
two instances whose device seeds coincide behave identically on identical
inputs. -/
theorem c4_equal_device_seed_deterministic
    (b c : Bool) (ss : ℤ) (mn : Nat) (gb : ℤ) (e1 e2 : Nat) (hseed : e1 = e2)
    (E : Extern) (fuel : Nat) (start goal path : List Config) (pos0 : Config)
    (st0 gt0 : Option RRT) :
    planPath (mkPathPlanner b c ss mn gb e1) E fuel start goal path pos0 st0 gt0 =
      planPath (mkPathPlanner b c ss mn gb e2) E fuel start goal path pos0 st0 gt0 := by
  rw [hseed]

/-- Witness for the amended C4 at concrete arguments and device seed 7. -/
theorem c4_equal_device_seed_witness :
    (7 = 7) ∧
    planPath (mkPathPlanner true false 1 4 1 7) envFree 2 [[0]] [[0]] [] [] none none =
      planPath (mkPathPlanner true false 1 4 1 7) envFree 2 [[0]] [[0]] [] [] none none :=
  ⟨rfl,
    c4_equal_device_seed_deterministic true false 1 4 1 7 7 rfl envFree 2 [[0]] [[0]] [] []
      none none⟩

/-- C5 counterexample: the claim says the bidirectional planner fails exactly
when the combined node count exceeds `maxNodes` and iterates as long as the
count is at most `maxNodes`. The loop guard at line 257 of `PathPlanner.h` is
`numNodes < maxNodes`, so with `maxNodes = 2` and one feasible start and goal
the combined count 2 never exceeds the budget, the loop body never runs —
even though the two roots coincide and an iteration would have met — and the
call fails. -/
theorem c5_fails_at_exact_budget :
    planPath plannerTightBudget envFree 1 [[0]] [[0]] [] [] none none =
      some { success := false, path := [], positions := [],
             startTree := some (RRT.init [[0]]), goalTree := some (RRT.init [[0]]),
             warnings := [] } ∧
    (RRT.init [[0]]).getSize + (RRT.init [[0]]).getSize ≤ plannerTightBudget.maxNodes := by
  decide

/-- C5 amended: the bidirectional growth loop iterates only while the
combined node count is strictly below `maxNodes`; it returns failure as soon
as the count reaches at least `maxNodes` without the trees meeting, and every
failure return carries trees whose combined count is at least `maxNodes`,
with the caller's path unchanged. -/
theorem c5_loop_guard_strict
    (P : Planner) (E : Extern) (g0 : Config) (fuel : Nat) (r1 r2 : RRT) (flag : Bool)
    (ri si : Nat) (path p : List Config) (st gt : RRT) :
    (P.maxNodes ≤ r1.getSize + r2.getSize →
      bidirLoop P E g0 (fuel + 1) r1 r2 flag ri si path =
        some (false, path, if flag then r1 else r2, if flag then r2 else r1)) ∧
    (bidirLoop P E g0 fuel r1 r2 flag ri si path = some (false, p, st, gt) →
      p = path ∧ P.maxNodes ≤ st.getSize + gt.getSize) := by
  constructor
  · intro hge
    simp only [bidirLoop]
    rw [if_neg (by omega)]
  · exact bidirLoop_false P E g0 fuel r1 r2 flag ri si path p st gt

/-- Witness for the amended C5: at the exact budget the loop stops at once
with the path unchanged and the two initial trees returned. -/
theorem c5_loop_guard_strict_witness :
    (plannerTightBudget.maxNodes ≤ (RRT.init [[0]]).getSize + (RRT.init [[0]]).getSize) ∧
    bidirLoop plannerTightBudget envFree [0] 1 (RRT.init [[0]]) (RRT.init [[0]]) true 0 0 [] =
      some (false, [], RRT.init [[0]], RRT.init [[0]]) :=
  ⟨by decide, by
    have h := (c5_loop_guard_strict plannerTightBudget envFree [0] 0 (RRT.init [[0]])
      (RRT.init [[0]]) true 0 0 [] [] (RRT.init [[0]]) (RRT.init [[0]])).1 (by decide)
    simpa using h⟩

end DartPlanning

namespace DartPlanning

lemma walledLoop_stuck :
    ∀ (fuel ri si : Nat),
      singleLoop plannerWalled envWalled [10] fuel walledTree ri si [] = none := by
  intro fuel
  induction fuel with
  | zero => intro ri si; rfl
  | succ n ih =>
    intro ri si
    have hstep : extendTree plannerWalled envWalled n walledTree [10] =
        some (walledTree, false) := by
      rw [extendTree_step_mode plannerWalled envWalled n walledTree [10] rfl]
      decide
    simp only [singleLoop]
    rw [if_pos (by decide)]
    have hpick : pickTarget plannerWalled envWalled [10] ri si = ([10], si) := by
      unfold pickTarget
      have hlt : envWalled.mtDraws plannerWalled.mtSeed ri < plannerWalled.goalBias := by
        show (0 : ℤ) < 1
        decide
      rw [if_pos hlt]
    rw [hpick]
    simp only [hstep]
    rw [if_neg (by decide)]
    exact ih (ri + 1) si

/-- C2: the claim states that each planning loop terminates — returning after
success or node-budget exhaustion — even when every extension attempt is
TRAPPED and inserts no node. The loop guard at line 191 of `PathPlanner.h`
(`numNodes <= maxNodes`) tests the node count, which never changes when every
attempt is TRAPPED, so the loop never exits: in the concrete environment
below (only `[0]` and `[10]` collision-free, step size 1, goal bias 1), every
candidate is `[1]`, always in collision, the tree stays at one node, and for
every iteration budget the call has still not returned. -/
theorem c2_trapped_loop_never_returns :
    ∀ fuel, planPath plannerWalled envWalled fuel [[0]] [[10]] [] [0] none none = none := by
  intro fuel
  have h := walledLoop_stuck fuel 0 0
  have e1 : sift envWalled.collision [[0]] [0] = ([[0]], [0]) := by decide
  have e2 : sift envWalled.collision [[10]] [0] = ([[10]], [10]) := by decide
  have e3 : RRT.init [[0]] = walledTree := by decide
  have hbid : plannerWalled.bidirectional = false := rfl
  simp [planPath, planSingleTreeRrt, e1, e2, e3, hbid, h]

end DartPlanning

namespace DartPlanning

/-- C6 counterexample: the claim says that when the growing tree's extension
is TRAPPED on its very first step, control loops to the next iteration rather
than the other tree attempting an extension. In the concrete run below
(bidirectional, step mode, only `[0]` and `[2]` collision-free, sampler
always proposing `[100]`), the goal tree grows first, its only step candidate
`[4]` is in collision, and its node set stays unchanged — second conjunct —
yet the call succeeds within a fuel budget of a single iteration, because the
start tree still extends toward the goal tree's active-node configuration and
reaches it; control never loops. -/
theorem c6_success_in_iteration_with_trapped_growth :
    planPath plannerMeeting envMeeting 1 [[0]] [[2]] [] [] none none =
      some { success := true, path := [[0], [2], [2]], positions := [],
             startTree := some meetStartTree, goalTree := some meetGoalTree,
             warnings := [] } ∧
    tryStep envMeeting plannerMeeting.stepSize meetGoalTree (envMeeting.sampler 0) =
      (meetGoalTree, StepResult.trapped) := by decide

lemma connectTree_trapped_first (E : Extern) (s : ℤ) (fuel : Nat) (t t1 : RRT)
    (target : Config) (h : tryStep E s t target = (t1, StepResult.trapped)) :
    connectTree E s (fuel + 1) t target = some (t1, false) := by
  simp only [connectTree]
  rw [h]

lemma extendTree_trapped (P : Planner) (E : Extern) (fuel : Nat) (t t1 : RRT)
    (target : Config) (h : tryStep E P.stepSize t target = (t1, StepResult.trapped)) :
    extendTree P E (fuel + 1) t target = some (t1, false) := by
  unfold extendTree
  split
  · exact connectTree_trapped_first E P.stepSize fuel t t1 target h
  · rw [h]
    rfl

/-- C6 amended: in either extension mode, when the growing tree's extension
is TRAPPED on its very first step (the hypothesis below is exactly that, for
both the single-`tryStep` and the `connect` dispatch) it inserts no node and
its active node becomes its node nearest the target; the iteration then
continues with the other tree attempting an extension toward that existing
active-node configuration — which can meet and succeed in the same
iteration — instead of looping to the next iteration; only nodes actually
inserted count toward the node budget. -/
theorem c6_trapped_growth_other_tree_still_extends
    (P : Planner) (E : Extern) (g0 : Config) (fuel : Nat) (r1 r2 : RRT) (oneIsStart : Bool)
    (ri si : Nat) (path : List Config) (t1 : RRT)
    (hguard : r1.getSize + r2.getSize < P.maxNodes)
    (htrap : tryStep E P.stepSize r2 (pickTarget P E g0 ri si).1 = (t1, StepResult.trapped)) :
    t1.nodes = r2.nodes ∧
    t1.mActiveNode = getNearestNeighbor E.gap r2 (pickTarget P E g0 ri si).1 ∧
    bidirLoop P E g0 (fuel + 2) r1 r2 oneIsStart ri si path =
      (match extendTree P E (fuel + 1) r1 (configAt t1 t1.mActiveNode) with
       | none => none
       | some q =>
         let st := if !oneIsStart then t1 else q.1
         let gt := if !oneIsStart then q.1 else t1
         if q.2 then
           some (true, path ++ tracePath st st.mActiveNode false ++
             tracePath gt gt.mActiveNode true, st, gt)
         else
           bidirLoop P E g0 (fuel + 1) t1 q.1 (!oneIsStart) (ri + 1)
             (pickTarget P E g0 ri si).2 path) := by
  have ht1 := tryStep_trapped_eq E P.stepSize r2 t1 _ htrap
  have hext1 : extendTree P E (fuel + 1) r2 (pickTarget P E g0 ri si).1 = some (t1, false) :=
    extendTree_trapped P E fuel r2 t1 _ htrap
  refine ⟨by rw [ht1], by rw [ht1], ?_⟩
  conv_lhs => rw [bidirLoop]
  dsimp only []
  rw [if_pos hguard, hext1]

/-- Witness for the amended C6 at the concrete meeting scenario, fuel budget
of one iteration; the hypotheses are discharged by evaluation. -/
theorem c6_trapped_growth_witness :
    meetGoalTree.nodes = (RRT.init [[2]]).nodes ∧
    meetGoalTree.mActiveNode =
      getNearestNeighbor envMeeting.gap (RRT.init [[2]])
        (pickTarget plannerMeeting envMeeting [2] 0 0).1 ∧
    bidirLoop plannerMeeting envMeeting [2] 2 (RRT.init [[0]]) (RRT.init [[2]]) true 0 0 [] =
      (match extendTree plannerMeeting envMeeting 1 (RRT.init [[0]])
          (configAt meetGoalTree meetGoalTree.mActiveNode) with
       | none => none
       | some q =>
         let st := if !true then meetGoalTree else q.1
         let gt := if !true then q.1 else meetGoalTree
         if q.2 then
           some (true, [] ++ tracePath st st.mActiveNode false ++
             tracePath gt gt.mActiveNode true, st, gt)
         else
           bidirLoop plannerMeeting envMeeting [2] 1 meetGoalTree q.1 (!true) (0 + 1)
             (pickTarget plannerMeeting envMeeting [2] 0 0).2 []) :=
  c6_trapped_growth_other_tree_still_extends plannerMeeting envMeeting [2] 0 (RRT.init [[0]])
    (RRT.init [[2]]) true 0 0 [] meetGoalTree (by decide) (by decide)

end DartPlanning

namespace DartPlanning

/-- C9: in single-tree mode, when the feasibility sift leaves more than one
goal, `planPath` passes only the first feasible goal to the single-tree
planner as both bias target and success reference (line 165 of
`PathPlanner.h`), emitting a warning (line 163); the remaining feasible goals
never influence the result: the call behaves exactly like the call with the
goal set reduced to that first feasible goal, up to the extra warning. -/
theorem c9_only_first_feasible_goal_used
    (P : Planner) (E : Extern) (fuel : Nat) (start goal path : List Config) (pos0 : Config)
    (st0 gt0 : Option RRT) (g0 g1 : Config) (rest : List Config)
    (hb : P.bidirectional = false)
    (hs : (sift E.collision start pos0).1 ≠ [])
    (hg : (sift E.collision goal (sift E.collision start pos0).2).1 = g0 :: g1 :: rest) :
    planPath P E fuel start goal path pos0 st0 gt0 =
      (planPath P E fuel start [g0] path pos0 st0 gt0).map
        (fun o => { o with warnings := [Warn.multipleGoals] }) := by
  have hg0 : E.collision g0 = false :=
    sift_mem_not_collision E.collision goal (sift E.collision start pos0).2 g0
      (by rw [hg]; exact List.mem_cons_self _ _)
  have hsg : sift E.collision [g0] (sift E.collision start pos0).2 = ([g0], g0) := by
    simp only [sift]
    rw [hg0]
    simp
  have hlen : (1 : Nat) < (g0 :: g1 :: rest).length := by
    simp only [List.length_cons]
    omega
  simp only [planPath, hb, hg, hsg, if_neg hs, List.headD_cons, if_pos hlen]
  rcases hres : planSingleTreeRrt P E fuel (sift E.collision start pos0).1 g0 path with _ | r
  · simp [hres]
  · simp [hres]

/-- Witness for C9: two feasible goals `[1]` and `[2]` in free space; the
call equals the single-goal call with the multiple-goals warning added. -/
theorem c9_only_first_feasible_goal_witness :
    (plannerGoalSeeking.bidirectional = false ∧
      (sift envFree.collision [[0]] []).1 ≠ [] ∧
      (sift envFree.collision [[1], [2]] (sift envFree.collision [[0]] []).2).1 =
        [1] :: [2] :: []) ∧
    planPath plannerGoalSeeking envFree 3 [[0]] [[1], [2]] [] [] none none =
      (planPath plannerGoalSeeking envFree 3 [[0]] [[1]] [] [] none none).map
        (fun o => { o with warnings := [Warn.multipleGoals] }) :=
  ⟨⟨rfl, by decide, by decide⟩,
    c9_only_first_feasible_goal_used plannerGoalSeeking envFree 3 [[0]] [[1], [2]] [] []
      none none [1] [2] [] rfl (by decide) (by decide)⟩

end DartPlanning
